import Mathlib

/-!
Verification of the dependency-ordered resource synchronization engine of
the aap-cac-base scripts.  The populator (`0_populate_awx_assets.py`), the
two cleaners (`0_cleanup_awx_assets.py`, `cleanup_aap_api_assets.py`) and
the downloader (`download_aap_api_assets.py`) are modelled as pure
functions over explicit server and traversal states; the HTTP transport is
abstracted to status codes, with the `requests` library's
`raise_for_status` modelled as an `Except` error on every 4xx/5xx status.
-/

namespace AapCac

/-- `requests.Response.raise_for_status`: raises `HTTPError` (modelled as
`Except.error` carrying the status code) exactly when the status code is a
client or server error, i.e. `400 ≤ status`. -/
def raiseForStatus (status : Nat) : Except Nat Unit :=
  if 400 ≤ status then Except.error status else Except.ok ()

/-- A remote AWX resource: numeric id, name, and an opaque `data` string
standing for all remaining payload fields. -/
structure AWXResource where
  id : Nat
  name : String
  data : String
deriving DecidableEq

/-- The remote server state seen by the populator at one endpoint: the
stored objects, the next id the server will assign, and the log of
creation (POST) requests received, as `(name, data)` pairs. -/
structure PopServer where
  objs : List AWXResource
  nextId : Nat
  createLog : List (String × String)
deriving DecidableEq

/-- `AWXPopulator._find_by_name` (0_populate_awx_assets.py lines 556-560):
issue an exact-match query `?name=...` (the server filters its objects by
name) and return `results[0]` if the result list is nonempty. -/
def findByName (s : PopServer) (name : String) : Option AWXResource :=
  (s.objs.filter (fun o => o.name = name)).head?

/-- `AWXPopulator._post` on a creation endpoint (lines 537-543): the
server stores a new object under the next id and returns it; the creation
request is logged. -/
def postCreate (s : PopServer) (name data : String) : PopServer × AWXResource :=
  let r : AWXResource := ⟨s.nextId, name, data⟩
  (⟨s.objs ++ [r], s.nextId + 1, s.createLog ++ [(name, data)]⟩, r)

/-- `AWXPopulator._ensure` (0_populate_awx_assets.py lines 562-568):
create if missing, otherwise return the existing object unchanged — the
candidate payload is never applied to an existing object. -/
def ensure (s : PopServer) (name data : String) : PopServer × AWXResource :=
  match findByName s name with
  | some existing => (s, existing)
  | none => postCreate s name data

/-- Resource kinds handled by the provisioner and the AWX decommissioner. -/
inductive Kind where
  | organization
  | team
  | user
  | credentialType
  | credential
  | project
  | inventory
  | jobTemplate
  | workflowJobTemplate
deriving DecidableEq

/-- The provisioner's kind processing order: `main` of
0_populate_awx_assets.py (lines 1032-1040) invokes the nine object
creators in this order.  (The tenth step, `assign_team_roles`, wires RBAC
grants onto already-created objects and deletes with them; it is not a
resource kind.) -/
def provisionOrder : List Kind :=
  [Kind.organization, Kind.team, Kind.user, Kind.credentialType,
   Kind.credential, Kind.project, Kind.inventory, Kind.jobTemplate,
   Kind.workflowJobTemplate]

/-- The AWX decommissioner's kind processing order: `main` of
0_cleanup_awx_assets.py (lines 242-250). -/
def cleanupOrder : List Kind :=
  [Kind.workflowJobTemplate, Kind.jobTemplate, Kind.inventory,
   Kind.project, Kind.credential, Kind.credentialType, Kind.user,
   Kind.team, Kind.organization]

/-- Outcome classification of one deletion attempt by a decommissioner. -/
inductive DelOutcome where
  | deleted
  | skipped
  | failed
  | aborted (status : Nat)
deriving DecidableEq

/-- `AWXCleaner._delete` and `AAPCleaner._delete` (identical code,
0_cleanup_awx_assets.py lines 98-106 / cleanup_aap_api_assets.py lines
82-90): DELETE returning 204 or 202 yields `true`; 404 yields `false`;
any other status goes through `raise_for_status`, which raises on every
4xx/5xx and otherwise falls through to `return True`. -/
def httpDelete (status : Nat) : Except Nat Bool :=
  if status = 204 ∨ status = 202 then Except.ok true
  else if status = 404 then Except.ok false
  else
    match raiseForStatus status with
    | Except.ok _ => Except.ok true
    | Except.error e => Except.error e

/-- `AWXCleaner._delete_by_name` (0_cleanup_awx_assets.py lines 118-132):
look up the name; absent counts skipped; then delete — `_delete`
returning `true` counts deleted, `false` (a 404) counts *failed*, and a
raised `HTTPError` propagates out of the per-name loop (aborting the
batch), since no handler catches it before `main`. -/
def awxDeleteByName (found : Option AWXResource) (status : Nat) : DelOutcome :=
  match found with
  | none => DelOutcome.skipped
  | some _ =>
    match httpDelete status with
    | Except.ok true => DelOutcome.deleted
    | Except.ok false => DelOutcome.failed
    | Except.error e => DelOutcome.aborted e

/-- `AAPCleaner._delete_object` (cleanup_aap_api_assets.py lines 92-107):
`_delete` returning `true` counts deleted, `false` (a 404) counts
skipped, and a raised `HTTPError` is caught in place and counts failed —
the loop continues with the next object. -/
def aapDeleteObject (status : Nat) : DelOutcome :=
  match httpDelete status with
  | Except.ok true => DelOutcome.deleted
  | Except.ok false => DelOutcome.skipped
  | Except.error _ => DelOutcome.failed

/-- One pass of the populator's per-resource creation loop (`main`,
0_populate_awx_assets.py lines 1031-1041, over `_ensure`/`_post`): each
create's HTTP status is consumed in order; the first 4xx/5xx raises
`HTTPError`, which no creator catches, so the remaining resources are not
processed.  Returns (number of resources processed, raised status if
any). -/
def runCreates : List Nat → Nat × Option Nat
  | [] => (0, none)
  | s :: rest =>
    if 400 ≤ s then (0, some s)
    else
      let r := runCreates rest
      (r.1 + 1, r.2)

/-- `main` of 0_populate_awx_assets.py (lines 1002-1056): exit 1 when the
connectivity/auth check fails; otherwise run the creators inside one
`try`, returning 1 from the `except` clause if any create raised and 0
only when every create succeeded. -/
def populatorMain (connectOk : Bool) (createStatuses : List Nat) : Nat :=
  if connectOk then
    match (runCreates createStatuses).2 with
    | none => 0
    | some _ => 1
  else 1

/-- One membership/association request wrapped in the populator's
`try: _post_no_body(...) except requests.exceptions.HTTPError: pass`
pattern (user-in-organization and user-in-team, lines 631-646;
job-template credential link, lines 900-910; workflow edge, lines
971-981): every raised `HTTPError` is swallowed. -/
def attemptAssociation (status : Nat) : Except Nat Unit :=
  match raiseForStatus status with
  | Except.ok _ => Except.ok ()
  | Except.error _ => Except.ok ()

/-- A loop of association requests with the suppression pattern applied to
each; returns the number of loop iterations completed. -/
def runAssociations : List Nat → Except Nat Nat
  | [] => Except.ok 0
  | s :: rest =>
    match attemptAssociation s with
    | Except.ok _ =>
      match runAssociations rest with
      | Except.ok n => Except.ok (n + 1)
      | Except.error e => Except.error e
    | Except.error e => Except.error e

/-- `AWXPopulator.assign_team_roles` grant loop (lines 698-702): the
`assigned` counter is incremented only after a successful grant; a raised
`HTTPError` is swallowed and the loop continues. -/
def assignTeamRoles : List Nat → Except Nat Nat
  | [] => Except.ok 0
  | s :: rest =>
    match raiseForStatus s with
    | Except.ok _ =>
      match assignTeamRoles rest with
      | Except.ok n => Except.ok (n + 1)
      | Except.error e => Except.error e
    | Except.error _ => assignTeamRoles rest

/-- `AWXPopulator.create_job_templates` for one template (lines 871-910):
the `_ensure` creation is *not* wrapped — its error propagates — while
each credential association is wrapped in `try/except HTTPError: pass`. -/
def createJobTemplate (ensureStatus : Nat) (credStatuses : List Nat) : Except Nat Nat :=
  match raiseForStatus ensureStatus with
  | Except.ok _ => runAssociations credStatuses
  | Except.error e => Except.error e

/-- The in-progress status set of `AWXPopulator._wait_for_project_syncs`
(0_populate_awx_assets.py line 789). -/
def inProgressStates : List String := ["pending", "waiting", "running", "new"]

/-- Whether a reported project status keeps the project in the tracked
set. -/
def isInProgress (s : String) : Bool := inProgressStates.contains s

/-- Result of the waiter: whether the deadline elapsed with projects still
tracked (the final `if pending:` warning), the wall-clock time at which
the loop exited, and the log of `(time, project id)` poll requests. -/
structure WaitResult where
  timedOut : Bool
  exitTime : Nat
  polls : List (Nat × Nat)
deriving DecidableEq

/-- The projects still in progress after one polling sweep at time `t`. -/
def stillPending (statuses : Nat → Nat → String) (pending : List Nat) (t : Nat) :
    List Nat :=
  pending.filter (fun pid => isInProgress (statuses t pid))

/-- `AWXPopulator._wait_for_project_syncs` (0_populate_awx_assets.py lines
778-800), with wall-clock time made explicit: polls are instantaneous and
each `time.sleep(3)` advances the clock by the fixed 3-second interval;
`statuses t pid` is the status the API reports for project `pid` at time
`t`.  The loop runs while the tracked set is nonempty and `t` is before
the deadline; each sweep re-polls exactly the tracked ids and keeps only
those still in progress; ids that left the in-progress set are dropped
from the tracked set. -/
def waitLoop (statuses : Nat → Nat → String) (pending : List Nat)
    (t deadline : Nat) : WaitResult :=
  if h : pending = [] ∨ deadline ≤ t then ⟨decide (¬pending = []), t, []⟩
  else if stillPending statuses pending t = [] then
    ⟨false, t, pending.map (fun pid => (t, pid))⟩
  else
    ⟨(waitLoop statuses (stillPending statuses pending t) (t + 3) deadline).timedOut,
     (waitLoop statuses (stillPending statuses pending t) (t + 3) deadline).exitTime,
     pending.map (fun pid => (t, pid)) ++
       (waitLoop statuses (stillPending statuses pending t) (t + 3) deadline).polls⟩
termination_by deadline - t
decreasing_by
  all_goals
    have ht : ¬deadline ≤ t := fun hc => h (Or.inr hc)
    omega

/-- A remote AAP object as listed by the API: id, name, and the `managed`
flag. -/
structure AAPObj where
  id : Nat
  name : String
  managed : Bool
deriving DecidableEq

/-- The AAP cleaner's counters plus, for verification, the log of objects
for which a DELETE request was actually issued. -/
structure CleanerState where
  deleted : Nat
  skipped : Nat
  failed : Nat
  deleteLog : List AAPObj
deriving DecidableEq

/-- `AAPCleaner._delete_object` (cleanup_aap_api_assets.py lines 92-107)
acting on the counters: the DELETE request is issued (logged) and the
outcome classified, errors caught in place. `delStatus o` is the HTTP
status the server answers for deleting `o`. -/
def deleteObjectStep (delStatus : AAPObj → Nat) (st : CleanerState)
    (o : AAPObj) : CleanerState :=
  match httpDelete (delStatus o) with
  | Except.ok true =>
    ⟨st.deleted + 1, st.skipped, st.failed, st.deleteLog ++ [o]⟩
  | Except.ok false =>
    ⟨st.deleted, st.skipped + 1, st.failed, st.deleteLog ++ [o]⟩
  | Except.error _ =>
    ⟨st.deleted, st.skipped, st.failed + 1, st.deleteLog ++ [o]⟩

/-- One iteration of `AAPCleaner.delete_all_non_default`'s object loop
(cleanup_aap_api_assets.py lines 133-143): a name in the kind's
protected-name set, or a `managed` object, is counted skipped before any
delete; everything else goes to `_delete_object`. -/
def processObject (skipNames : List String) (delStatus : AAPObj → Nat)
    (st : CleanerState) (o : AAPObj) : CleanerState :=
  if skipNames.contains o.name then
    ⟨st.deleted, st.skipped + 1, st.failed, st.deleteLog⟩
  else if o.managed then
    ⟨st.deleted, st.skipped + 1, st.failed, st.deleteLog⟩
  else deleteObjectStep delStatus st o

/-- One kind's pass of `AAPCleaner.delete_all_non_default`
(cleanup_aap_api_assets.py lines 109-143) over the listed objects. -/
def deleteAllOfKind (skipNames : List String) (delStatus : AAPObj → Nat)
    (objs : List AAPObj) : CleanerState :=
  objs.foldl (processObject skipNames delStatus) ⟨0, 0, 0, []⟩

/-- Protected organization names (cleanup_aap_api_assets.py line 48). -/
def SKIP_ORGS : List String := ["Default"]

/-- Protected project names (line 49). -/
def SKIP_PROJECTS : List String := ["Demo Project"]

/-- Protected inventory names (line 50). -/
def SKIP_INVENTORIES : List String := ["Demo Inventory"]

/-- Protected credential names (line 51). -/
def SKIP_CREDENTIALS : List String := ["Demo Credential"]

/-- Protected execution environment names (lines 52-57). -/
def SKIP_EES : List String :=
  ["Control Plane Execution Environment", "Default execution environment",
   "Ansible Engine 2.9 Execution Environment", "Minimal execution environment"]

/-- `AAPCleaner._get_all` (cleanup_aap_api_assets.py lines 69-80): follow
the `next` link of every response page until it is `null`, extending
`results` with each page; the pages are the successive responses the
server serves along the `next` chain. -/
def getAllPages : List (List Nat) → List Nat
  | [] => []
  | page :: rest => page ++ getAllPages rest

/-- `AAPAssetDownloader.download_workflow_job_templates` listing step
(download_aap_api_assets.py lines 89-90): a single `fetch_api` call whose
`results` field is only the first response page — the `next` link is not
followed. -/
def fetchFirstPage (pages : List (List Nat)) : List Nat := pages.headD []

/-- Resource kinds tracked per visited set by the downloader
(`self.downloaded`, download_aap_api_assets.py line 41). -/
inductive DKind where
  | workflows
  | jobTemplates
  | projects
  | inventories
  | credentials
  | executionEnvironments
  | organizations
deriving DecidableEq

/-- The remote reference graph the downloader walks: for each resource id,
the reference fields the code follows (download_aap_api_assets.py —
job template: `project`, `inventory`, `execution_environment`,
`summary_fields.credentials`; project: `organization`,
`summary_fields.credential`; inventory, credential, execution
environment: `organization`; workflow: the job templates behind its
workflow nodes). -/
structure Remote where
  jtProject : Nat → Option Nat
  jtInventory : Nat → Option Nat
  jtEE : Nat → Option Nat
  jtCreds : Nat → List Nat
  projOrg : Nat → Option Nat
  projCred : Nat → Option Nat
  invOrg : Nat → Option Nat
  credOrg : Nat → Option Nat
  eeOrg : Nat → Option Nat
  wfNodeJts : Nat → List Nat

/-- Downloader traversal state: the per-kind visited sets (as a single set
of `(kind, id)` pairs), plus logs of the detail fetches issued and the
documents persisted. -/
structure DlState where
  visited : List (DKind × Nat)
  fetchLog : List (DKind × Nat)
  saveLog : List (DKind × Nat)
deriving DecidableEq

/-- The common body of every `download_*` method on the success path:
fetch the detail document, persist it, and add the id to the kind's
visited set — all before recursing into reference fields. -/
def DlState.touch (st : DlState) (k : DKind) (i : Nat) : DlState :=
  ⟨(k, i) :: st.visited, st.fetchLog ++ [(k, i)], st.saveLog ++ [(k, i)]⟩

/-- `download_organization` (download_aap_api_assets.py lines 287-302):
return immediately if already visited; otherwise fetch, save, mark
visited; no reference fields to recurse into. -/
def downloadOrganization (r : Remote) (st : DlState) (i : Nat) : DlState :=
  if (DKind.organizations, i) ∈ st.visited then st
  else st.touch DKind.organizations i

/-- The `if credential.get('organization'): download_organization(...)`
guard: recurse into the organization reference when present. -/
def downloadOrganizationOpt (r : Remote) (st : DlState) : Option Nat → DlState
  | some i => downloadOrganization r st i
  | none => st

/-- `download_credential` (lines 241-264): visited check, fetch, redact,
save, mark visited, then recurse into `organization` if present. -/
def downloadCredential (r : Remote) (st : DlState) (i : Nat) : DlState :=
  if (DKind.credentials, i) ∈ st.visited then st
  else downloadOrganizationOpt r (st.touch DKind.credentials i) (r.credOrg i)

/-- The guarded recursion into an optional credential reference. -/
def downloadCredentialOpt (r : Remote) (st : DlState) : Option Nat → DlState
  | some i => downloadCredential r st i
  | none => st

/-- `download_execution_environment` (lines 266-285). -/
def downloadExecutionEnvironment (r : Remote) (st : DlState) (i : Nat) : DlState :=
  if (DKind.executionEnvironments, i) ∈ st.visited then st
  else
    downloadOrganizationOpt r (st.touch DKind.executionEnvironments i) (r.eeOrg i)

/-- The guarded recursion into an optional execution environment
reference. -/
def downloadExecutionEnvironmentOpt (r : Remote) (st : DlState) :
    Option Nat → DlState
  | some i => downloadExecutionEnvironment r st i
  | none => st

/-- `download_inventory` (lines 210-239). -/
def downloadInventory (r : Remote) (st : DlState) (i : Nat) : DlState :=
  if (DKind.inventories, i) ∈ st.visited then st
  else downloadOrganizationOpt r (st.touch DKind.inventories i) (r.invOrg i)

/-- The guarded recursion into an optional inventory reference. -/
def downloadInventoryOpt (r : Remote) (st : DlState) : Option Nat → DlState
  | some i => downloadInventory r st i
  | none => st

/-- `download_project` (lines 182-208): after fetch/save/visit, recurse
into the organization, then the SCM credential. -/
def downloadProject (r : Remote) (st : DlState) (i : Nat) : DlState :=
  if (DKind.projects, i) ∈ st.visited then st
  else
    downloadCredentialOpt r
      (downloadOrganizationOpt r (st.touch DKind.projects i) (r.projOrg i))
      (r.projCred i)

/-- The guarded recursion into an optional project reference. -/
def downloadProjectOpt (r : Remote) (st : DlState) : Option Nat → DlState
  | some i => downloadProject r st i
  | none => st

/-- `download_job_template` (lines 138-180): after fetch/save/visit,
recurse into the project, the inventory, the execution environment, and
every listed credential. -/
def downloadJobTemplate (r : Remote) (st : DlState) (i : Nat) : DlState :=
  if (DKind.jobTemplates, i) ∈ st.visited then st
  else
    (r.jtCreds i).foldl (downloadCredential r)
      (downloadExecutionEnvironmentOpt r
        (downloadInventoryOpt r
          (downloadProjectOpt r (st.touch DKind.jobTemplates i) (r.jtProject i))
          (r.jtInventory i))
        (r.jtEE i))

/-- One iteration of `download_workflow_job_templates`' workflow loop
(lines 98-134): visited check, fetch detail and nodes, save, mark
visited, then download the job template behind each workflow node. -/
def downloadWorkflow (r : Remote) (st : DlState) (i : Nat) : DlState :=
  if (DKind.workflows, i) ∈ st.visited then st
  else
    (r.wfNodeJts i).foldl (downloadJobTemplate r) (st.touch DKind.workflows i)

/-- A full collector run over the listed workflow ids, starting from empty
visited sets and logs. -/
def runCollector (r : Remote) (wfIds : List Nat) : DlState :=
  wfIds.foldl (downloadWorkflow r) ⟨[], [], []⟩

/-- Invariant tying the downloader's logs to its visited sets: every
`(kind, id)` was fetched at most once, fetched exactly when visited, and
persisted exactly when fetched. -/
def DlInv (st : DlState) : Prop :=
  st.fetchLog.Nodup
  ∧ (∀ e : DKind × Nat, e ∈ st.fetchLog ↔ e ∈ st.visited)
  ∧ st.saveLog = st.fetchLog

/-- A credential document as a JSON object: field name to value (Python
dict keys are unique, so the document is a partial map). -/
def CredDoc := String → Option String

/-- The `inputs` field name of a credential document. -/
def inputsKey : String := "inputs"

/-- The fixed placeholder `download_credential` writes over the `inputs`
field (download_aap_api_assets.py line 252, the dict with the single
`_note` entry). -/
def credInputsPlaceholder : String := "_note: Sensitive data removed"

/-- The redaction step of `download_credential` (lines 251-252): when the
fetched payload contains an `inputs` key, overwrite its value with the
fixed placeholder; other fields are untouched. -/
def redactCredentialInputs (doc : CredDoc) : CredDoc :=
  if (doc inputsKey).isSome then
    fun k => if k = inputsKey then some credInputsPlaceholder else doc k
  else doc

/-- The document `download_credential` persists (line 255): exactly the
redacted fetched payload. -/
def persistedCredentialDoc (doc : CredDoc) : CredDoc :=
  redactCredentialInputs doc

/-- C1: the upsert is idempotent.  If the lookup by name finds an existing
resource, `_ensure` returns it with the server fully unchanged (no
creation request issued, candidate payload not applied); invoking the
upsert twice with the same name leaves the server unchanged the second
time, and a single upsert grows the object store by at most one. -/
theorem ensure_idempotent (s : PopServer) (name d d' : String) :
    (∀ o, findByName s name = some o → ensure s name d = (s, o))
    ∧ (ensure (ensure s name d).1 name d').1 = (ensure s name d).1
    ∧ (ensure s name d).1.objs.length ≤ s.objs.length + 1 := by
  refine ⟨?_, ?_, ?_⟩
  · intro o h
    simp [ensure, h]
  · have key : ∀ (t : PopServer) (dd : String) (o : AWXResource),
        findByName t name = some o → (ensure t name dd).1 = t := by
      intro t dd o h
      simp [ensure, h]
    cases hfind : findByName s name with
    | some o =>
      exact key _ d' _ (by rw [show (ensure s name d).1 = s from by simp [ensure, hfind]]; exact hfind)
    | none =>
      have hall : ∀ x ∈ s.objs, ¬x.name = name := by
        have h := hfind
        simpa [findByName, List.head?_eq_none_iff, List.filter_eq_nil_iff] using h
      have hfilter : s.objs.filter (fun o => o.name = name) = [] :=
        List.filter_eq_nil_iff.mpr (by simpa using hall)
      have hfind2 :
          findByName (ensure s name d).1 name = some ⟨s.nextId, name, d⟩ := by
        simp [ensure, hfind, postCreate, findByName, List.filter_append, hfilter]
      exact key _ d' _ hfind2
  · cases hfind : findByName s name with
    | some o => simp [ensure, hfind]
    | none => simp [ensure, hfind, postCreate]

/-- Concrete instantiation of `ensure_idempotent`: a server already holding
an organization named by `wOrgName` returns it unchanged. -/
theorem ensure_idempotent_witness :
    findByName ⟨[⟨7, "Org-A", "x"⟩], 8, []⟩ "Org-A" = some ⟨7, "Org-A", "x"⟩
    ∧ ensure ⟨[⟨7, "Org-A", "x"⟩], 8, []⟩ "Org-A" "pay" =
        (⟨[⟨7, "Org-A", "x"⟩], 8, []⟩, ⟨7, "Org-A", "x"⟩) := by
  constructor
  · decide
  · exact (ensure_idempotent ⟨[⟨7, "Org-A", "x"⟩], 8, []⟩ "Org-A" "pay" "q").1
      ⟨7, "Org-A", "x"⟩ (by decide)

/-- C6: the decommissioner's kind processing order is exactly the reverse
of the provisioner's. -/
theorem cleanup_order_is_reverse : cleanupOrder = provisionOrder.reverse := by
  decide

/-- C3 counterexample: in the AWX decommissioner, a delete answered with
404 is classified Failed (the claim says Skipped), and a delete answered
with 500 raises and aborts the batch (the claim says Failed-and-continue). -/
theorem awx_delete_404_counterexample :
    awxDeleteByName (some ⟨3, "MigrateMe - DB Backup", "x"⟩) 404 = DelOutcome.failed
    ∧ awxDeleteByName (some ⟨3, "MigrateMe - DB Backup", "x"⟩) 500 =
        DelOutcome.aborted 500 := by
  decide

/-- C3 amended: the claimed classification holds for the AAP cleaner's
`_delete_object` (204/202 → Deleted, 404 → Skipped, other non-success →
Failed, never aborting); in the AWX cleaner's `_delete_by_name`, a name
absent on lookup is Skipped and 204/202 is Deleted, but a delete answered
404 is classified Failed and any other non-success raises, aborting the
batch. -/
theorem cleaner_outcome_classification (found : AWXResource) (status : Nat) :
    (awxDeleteByName none status = DelOutcome.skipped)
    ∧ (status = 204 ∨ status = 202 →
        awxDeleteByName (some found) status = DelOutcome.deleted
        ∧ aapDeleteObject status = DelOutcome.deleted)
    ∧ (awxDeleteByName (some found) 404 = DelOutcome.failed
        ∧ aapDeleteObject 404 = DelOutcome.skipped)
    ∧ (400 ≤ status → ¬status = 404 →
        awxDeleteByName (some found) status = DelOutcome.aborted status
        ∧ aapDeleteObject status = DelOutcome.failed)
    ∧ (∀ e, ¬aapDeleteObject status = DelOutcome.aborted e) := by
  refine ⟨rfl, ?_, ⟨rfl, rfl⟩, ?_, ?_⟩
  · intro h
    rcases h with h | h <;> subst h <;> exact ⟨rfl, rfl⟩
  · intro h4 hne
    have h1 : ¬(status = 204 ∨ status = 202) := by omega
    constructor <;>
      simp [awxDeleteByName, aapDeleteObject, httpDelete, raiseForStatus, h1, hne, h4]
  · intro e
    cases h : httpDelete status with
    | ok b => cases b <;> simp [aapDeleteObject, h]
    | error s => simp [aapDeleteObject, h]

/-- Concrete instantiation of `cleaner_outcome_classification`: a 204
delete is Deleted for the AWX cleaner and a 500 delete is Failed for the
AAP cleaner. -/
theorem cleaner_outcome_classification_witness :
    awxDeleteByName (some ⟨9, "DevOps", "x"⟩) 204 = DelOutcome.deleted
    ∧ aapDeleteObject 500 = DelOutcome.failed :=
  ⟨((cleaner_outcome_classification ⟨9, "DevOps", "x"⟩ 204).2.1 (Or.inl rfl)).1,
   ((cleaner_outcome_classification ⟨9, "DevOps", "x"⟩ 500).2.2.2.1 (by decide)
      (by decide)).2⟩

/-- C4 counterexample: with connectivity fine and create statuses
201, 500, 201, the populator processes only the first resource, then the
500 raises out of `main`'s `try` and the process exits 1 — not exit 0
with the remaining resources processed as the claim states. -/
theorem populator_midrun_error_counterexample :
    populatorMain true [201, 500, 201] = 1
    ∧ runCreates [201, 500, 201] = (1, some 500) := by
  decide

/-- Helper: the populator's creation pass completes without raising iff
every create status is a success. -/
theorem runCreates_none_iff :
    ∀ l : List Nat, (runCreates l).2 = none ↔ ∀ x ∈ l, x < 400 := by
  intro l
  induction l with
  | nil => simp [runCreates]
  | cons s rest ih =>
    by_cases h : 400 ≤ s
    · simp only [runCreates, if_pos h]
      constructor
      · intro hc
        simp at hc
      · intro hall
        exact absurd (hall s (List.mem_cons_self s rest)) (by omega)
    · simp only [runCreates, if_neg h]
      rw [ih]
      constructor
      · intro hall x hx
        rcases List.mem_cons.mp hx with rfl | hx2
        · omega
        · exact hall x hx2
      · intro hall x hx
        exact hall x (List.mem_cons_of_mem s hx)

/-- C4 amended: a non-2xx on a single resource's lookup or create raises
and aborts the whole run — the resources after it are not processed and
the process exits 1; exit code 0 is returned exactly when the
connectivity check and every per-resource operation succeed, so exit 1 is
not reserved for pre-work connectivity/authentication failure. -/
theorem populator_abort_on_create_error (connectOk : Bool)
    (sts pre post : List Nat) (s : Nat) :
    (populatorMain connectOk sts = 0 ↔ connectOk = true ∧ ∀ x ∈ sts, x < 400)
    ∧ ((∀ x ∈ pre, x < 400) → 400 ≤ s →
        runCreates (pre ++ s :: post) = (pre.length, some s)) := by
  constructor
  · cases connectOk with
    | false => simp [populatorMain]
    | true =>
      cases h : (runCreates sts).2 with
      | none =>
        simp [populatorMain, h]
        exact (runCreates_none_iff sts).mp h
      | some e =>
        have hno : ¬∀ x ∈ sts, x < 400 := by
          intro hall
          rw [(runCreates_none_iff sts).mpr hall] at h
          cases h
        simp [populatorMain, h, hno]
  · intro hpre hs
    induction pre with
    | nil => simp [runCreates, hs]
    | cons a rest ih =>
      have ha : ¬400 ≤ a := by
        have := hpre a (by simp)
        omega
      have hrest : ∀ x ∈ rest, x < 400 := fun x hx => hpre x (by simp [hx])
      simp [runCreates, ha, ih hrest]

/-- Concrete instantiation of `populator_abort_on_create_error`: two
successful creates followed by a 500 stop the pass at two processed. -/
theorem populator_abort_witness :
    runCreates ([201, 204] ++ 500 :: [202]) = (2, some 500) :=
  (populator_abort_on_create_error true [] [201, 204] [202] 500).2
    (by decide) (by decide)

/-- Helper: the `try/except HTTPError: pass` wrapper never lets an error
escape an association attempt. -/
theorem attemptAssociation_ok (status : Nat) :
    attemptAssociation status = Except.ok () := by
  cases h : raiseForStatus status <;> simp [attemptAssociation, h]

/-- Helper: a loop of suppressed association attempts completes all its
iterations, whatever the statuses. -/
theorem runAssociations_ok (l : List Nat) :
    runAssociations l = Except.ok l.length := by
  induction l with
  | nil => simp [runAssociations]
  | cons s rest ih => simp [runAssociations, attemptAssociation_ok, ih]

/-- Helper: the role-grant loop never raises and counts exactly the
successful grants. -/
theorem assignTeamRoles_ok (l : List Nat) :
    assignTeamRoles l = Except.ok (l.countP (fun x => decide (x < 400))) := by
  induction l with
  | nil => simp [assignTeamRoles]
  | cons s rest ih =>
    by_cases h : 400 ≤ s
    · have hne : ¬(decide (s < 400) = true) := by simp; omega
      simp [assignTeamRoles, raiseForStatus, h, ih, List.countP_cons, hne]
    · have hlt : decide (s < 400) = true := by simp; omega
      simp [assignTeamRoles, raiseForStatus, h, ih, List.countP_cons, hlt]

/-- C10: every membership/association request wrapped in the populator's
`try/except HTTPError: pass` pattern suppresses any HTTP error response —
the loop completes all iterations and records no failure (the role-grant
counter merely skips the failed grant) — while the unwrapped `_ensure`
creation of the same loop does propagate its error, showing the
suppression is specific to associations. -/
theorem association_errors_suppressed (sts cs : List Nat) (s e : Nat) :
    runAssociations sts = Except.ok sts.length
    ∧ assignTeamRoles sts = Except.ok (sts.countP (fun x => decide (x < 400)))
    ∧ (400 ≤ e → raiseForStatus e = Except.error e)
    ∧ (400 ≤ e → createJobTemplate e cs = Except.error e)
    ∧ (s < 400 → createJobTemplate s cs = Except.ok cs.length) := by
  refine ⟨runAssociations_ok sts, assignTeamRoles_ok sts, ?_, ?_, ?_⟩
  · intro h
    simp [raiseForStatus, h]
  · intro h
    simp [createJobTemplate, raiseForStatus, h]
  · intro h
    have hn : ¬400 ≤ s := by omega
    simp [createJobTemplate, raiseForStatus, hn, runAssociations_ok]

/-- Concrete instantiation of `association_errors_suppressed`: a 500 on
the unwrapped create propagates, while 500 and 403 among the credential
associations are swallowed and all three links are attempted. -/
theorem association_errors_suppressed_witness :
    (400 ≤ (500 : Nat) ∧ createJobTemplate 500 [204, 500, 403] = Except.error 500)
    ∧ ((201 : Nat) < 400 ∧ createJobTemplate 201 [204, 500, 403] = Except.ok 3) :=
  ⟨⟨by decide, (association_errors_suppressed [] [204, 500, 403] 201 500).2.2.2.1
      (by decide)⟩,
   ⟨by decide, (association_errors_suppressed [] [204, 500, 403] 201 500).2.2.2.2
      (by decide)⟩⟩

/-- Helper: when every tracked project reports an in-progress status at
every time, the waiter exits timed out, no later than one poll interval
past the deadline. -/
theorem waitLoop_timeout (statuses : Nat → Nat → String) (deadline : Nat) :
    ∀ (n t : Nat) (pending : List Nat), deadline - t ≤ n → t < deadline + 3 →
      ¬pending = [] →
      (∀ time pid, pid ∈ pending → isInProgress (statuses time pid) = true) →
      (waitLoop statuses pending t deadline).timedOut = true
      ∧ (waitLoop statuses pending t deadline).exitTime < deadline + 3 := by
  intro n
  induction n with
  | zero =>
    intro t pending hn ht hne _
    rw [waitLoop, dif_pos (Or.inr (by omega))]
    exact ⟨by simp [hne], ht⟩
  | succ m ih =>
    intro t pending hn ht hne hall
    by_cases hdt : deadline ≤ t
    · rw [waitLoop, dif_pos (Or.inr hdt)]
      exact ⟨by simp [hne], ht⟩
    · have hguard : ¬(pending = [] ∨ deadline ≤ t) := by
        rintro (hc | hc)
        · exact hne hc
        · exact hdt hc
      have hstill : stillPending statuses pending t = pending :=
        List.filter_eq_self.mpr (fun a ha => hall t a ha)
      have hstill_ne : ¬stillPending statuses pending t = [] := by
        rw [hstill]; exact hne
      rw [waitLoop, dif_neg hguard, if_neg hstill_ne]
      have hrec := ih (t + 3) (stillPending statuses pending t) (by omega)
        (by omega) hstill_ne (by rw [hstill]; exact hall)
      exact hrec

/-- Helper: every poll in the waiter's log happens no earlier than the
entry time and targets a currently tracked project. -/
theorem waitLoop_polls_shape (statuses : Nat → Nat → String) (deadline : Nat) :
    ∀ (n t : Nat) (pending : List Nat), deadline - t ≤ n →
      ∀ tp pid, (tp, pid) ∈ (waitLoop statuses pending t deadline).polls →
        t ≤ tp ∧ pid ∈ pending := by
  intro n
  induction n with
  | zero =>
    intro t pending hn tp pid hmem
    rw [waitLoop, dif_pos (Or.inr (by omega))] at hmem
    simp at hmem
  | succ m ih =>
    intro t pending hn tp pid hmem
    by_cases hguard : pending = [] ∨ deadline ≤ t
    · rw [waitLoop, dif_pos hguard] at hmem
      simp at hmem
    · have hdt : ¬deadline ≤ t := fun hc => hguard (Or.inr hc)
      by_cases hstill : stillPending statuses pending t = []
      · rw [waitLoop, dif_neg hguard, if_pos hstill] at hmem
        simp only [List.mem_map] at hmem
        obtain ⟨a, ha, heq⟩ := hmem
        obtain ⟨h1, h2⟩ := Prod.mk.injEq .. ▸ heq
        exact ⟨le_of_eq h1, h2 ▸ ha⟩
      · rw [waitLoop, dif_neg hguard, if_neg hstill] at hmem
        simp only [List.mem_append, List.mem_map] at hmem
        rcases hmem with ⟨a, ha, heq⟩ | hrec
        · obtain ⟨h1, h2⟩ := Prod.mk.injEq .. ▸ heq
          exact ⟨le_of_eq h1, h2 ▸ ha⟩
        · have := ih (t + 3) (stillPending statuses pending t) (by omega)
            tp pid hrec
          refine ⟨by omega, ?_⟩
          exact (List.mem_filter.mp this.2).1

/-- Helper: once a poll observes a project outside the in-progress set,
that project is dropped from the tracked set and never appears in a later
poll. -/
theorem waitLoop_no_repoll (statuses : Nat → Nat → String) (deadline : Nat) :
    ∀ (n t : Nat) (pending : List Nat), deadline - t ≤ n →
      ∀ t1 pid, (t1, pid) ∈ (waitLoop statuses pending t deadline).polls →
        isInProgress (statuses t1 pid) = false →
        ∀ t2, (t2, pid) ∈ (waitLoop statuses pending t deadline).polls → t2 ≤ t1 := by
  intro n
  induction n with
  | zero =>
    intro t pending hn t1 pid h1 _ t2 h2
    rw [waitLoop, dif_pos (Or.inr (by omega))] at h1
    simp at h1
  | succ m ih =>
    intro t pending hn t1 pid h1 hfalse t2 h2
    by_cases hguard : pending = [] ∨ deadline ≤ t
    · rw [waitLoop, dif_pos hguard] at h1
      simp at h1
    · have hdt : ¬deadline ≤ t := fun hc => hguard (Or.inr hc)
      by_cases hstill : stillPending statuses pending t = []
      · rw [waitLoop, dif_neg hguard, if_pos hstill] at h1 h2
        simp only [List.mem_map] at h1 h2
        obtain ⟨a, _, heq1⟩ := h1
        obtain ⟨b, _, heq2⟩ := h2
        have ht1 : t = t1 := (Prod.mk.injEq .. ▸ heq1).1
        have ht2 : t = t2 := (Prod.mk.injEq .. ▸ heq2).1
        omega
      · rw [waitLoop, dif_neg hguard, if_neg hstill] at h1 h2
        simp only [List.mem_append, List.mem_map] at h1 h2
        rcases h1 with ⟨a, ha, heq1⟩ | hrec1
        · obtain ⟨hteq, haeq⟩ := Prod.mk.injEq .. ▸ heq1
          have hfalse2 : isInProgress (statuses t pid) = false := by
            rw [hteq]; exact hfalse
          rcases h2 with ⟨b, hb, heq2⟩ | hrec2
          · have ht2 : t = t2 := (Prod.mk.injEq .. ▸ heq2).1
            omega
          · have hsh := (waitLoop_polls_shape statuses deadline
              (deadline - (t + 3)) (t + 3) (stillPending statuses pending t)
              (le_refl _) t2 pid hrec2).2
            have hmem := List.mem_filter.mp hsh
            have : isInProgress (statuses t pid) = true := by simpa using hmem.2
            rw [hfalse2] at this
            cases this
        · have hsh1 := waitLoop_polls_shape statuses deadline
            (deadline - (t + 3)) (t + 3) (stillPending statuses pending t)
            (le_refl _) t1 pid hrec1
          rcases h2 with ⟨b, hb, heq2⟩ | hrec2
          · have ht2 : t = t2 := (Prod.mk.injEq .. ▸ heq2).1
            omega
          · exact ih (t + 3) (stillPending statuses pending t) (by omega)
              t1 pid hrec1 hfalse t2 hrec2

/-- C5: the async-completion waiter.  If every tracked project id reports
an in-progress status at every polling time, the waiter exits in the
timed-out state (warning, caller proceeds) no later than the deadline
plus one 3-second poll interval — it never polls indefinitely; and any id
observed outside the in-progress set is dropped from the tracked set and
never polled again afterwards. -/
theorem waiter_timeout_and_removal (statuses : Nat → Nat → String)
    (pending : List Nat) (deadline : Nat) (hne : ¬pending = []) :
    ((∀ time pid, pid ∈ pending → isInProgress (statuses time pid) = true) →
      (waitLoop statuses pending 0 deadline).timedOut = true
      ∧ (waitLoop statuses pending 0 deadline).exitTime < deadline + 3)
    ∧ (∀ t1 pid, (t1, pid) ∈ (waitLoop statuses pending 0 deadline).polls →
        isInProgress (statuses t1 pid) = false →
        ∀ t2, (t2, pid) ∈ (waitLoop statuses pending 0 deadline).polls →
          t2 ≤ t1) :=
  ⟨fun hall => waitLoop_timeout statuses deadline deadline 0 pending
      (by omega) (by omega) hne hall,
   fun t1 pid h1 hf t2 h2 => waitLoop_no_repoll statuses deadline deadline 0
      pending (by omega) t1 pid h1 hf t2 h2⟩

/-- Concrete instantiation of `waiter_timeout_and_removal`: one project
stuck in `pending` against a 7-second deadline times out by second 10. -/
theorem waiter_timeout_witness :
    (¬([1] : List Nat) = [])
    ∧ (waitLoop (fun _ _ => "pending") [1] 0 7).timedOut = true
    ∧ (waitLoop (fun _ _ => "pending") [1] 0 7).exitTime < 7 + 3 := by
  have h := (waiter_timeout_and_removal (fun _ _ => "pending") [1] 7
    (by decide)).1 (fun time pid _ => by decide)
  exact ⟨by decide, h.1, h.2⟩

/-- C7: whenever the fetched credential payload contains an `inputs` key,
the persisted document carries the fixed placeholder there — never the
original value — while an absent `inputs` key and all other fields are
left untouched. -/
theorem credential_inputs_redacted (doc : CredDoc) (v k : String) :
    (doc inputsKey = some v →
      persistedCredentialDoc doc inputsKey = some credInputsPlaceholder)
    ∧ (doc inputsKey = some v → ¬v = credInputsPlaceholder →
        ¬persistedCredentialDoc doc inputsKey = some v)
    ∧ (doc inputsKey = none → persistedCredentialDoc doc inputsKey = none)
    ∧ (¬k = inputsKey → persistedCredentialDoc doc k = doc k) := by
  refine ⟨?_, ?_, ?_, ?_⟩
  · intro h
    simp [persistedCredentialDoc, redactCredentialInputs, h]
  · intro h hne hc
    simp [persistedCredentialDoc, redactCredentialInputs, h] at hc
    exact hne hc.symm
  · intro h
    simp [persistedCredentialDoc, redactCredentialInputs, h]
  · intro hk
    by_cases h : (doc inputsKey).isSome
    · simp [persistedCredentialDoc, redactCredentialInputs, h, hk]
    · simp [persistedCredentialDoc, redactCredentialInputs, h]

/-- The sample machine credential's secret value, used to instantiate the
redaction theorem. -/
def sampleSecret : String := "ansible123"

/-- A one-field credential document holding only the secret `inputs`. -/
def sampleCredDoc : CredDoc :=
  fun key => if key = inputsKey then some sampleSecret else none

/-- Concrete instantiation of `credential_inputs_redacted`: the sample
document's `inputs` value is persisted as the placeholder. -/
theorem credential_inputs_redacted_witness :
    sampleCredDoc inputsKey = some sampleSecret
    ∧ persistedCredentialDoc sampleCredDoc inputsKey =
        some credInputsPlaceholder := by
  have h : sampleCredDoc inputsKey = some sampleSecret := by
    simp [sampleCredDoc]
  exact ⟨h, (credential_inputs_redacted sampleCredDoc sampleSecret inputsKey).1 h⟩

/-- C9 counterexample: with the workflow listing served in two pages, an
object on the second page is in the full accumulation but missing from
the downloader's single-page workflow listing — so not every paginated
listing operation follows the `next` link. -/
theorem pagination_single_page_counterexample :
    (2 ∈ getAllPages [[1], [2]]) ∧ ¬(2 ∈ fetchFirstPage [[1], [2]]) := by
  decide

/-- Helper: following the `next` chain accumulates every page in order. -/
theorem getAllPages_eq_join (pages : List (List Nat)) :
    getAllPages pages = pages.flatten := by
  induction pages with
  | nil => rfl
  | cons p ps ih => simp [getAllPages, ih]

/-- C9 amended: the AAP cleaner's `_get_all` follows the `next` link until
exhausted, accumulating the `results` of every page, so it omits no
object from any page; but the downloader's workflow listing issues a
single request and returns only the first page. -/
theorem pagination_accumulates (pages : List (List Nat)) (p0 : List Nat)
    (rest : List (List Nat)) :
    getAllPages pages = pages.flatten
    ∧ (∀ x, x ∈ getAllPages pages ↔ ∃ pg ∈ pages, x ∈ pg)
    ∧ (pages = p0 :: rest → fetchFirstPage pages = p0) := by
  refine ⟨getAllPages_eq_join pages, ?_, ?_⟩
  · intro x
    rw [getAllPages_eq_join]
    simp [List.mem_flatten]
  · intro h
    subst h
    rfl

/-- Concrete instantiation of `pagination_accumulates`: the first page of
a two-page listing. -/
theorem pagination_accumulates_witness :
    fetchFirstPage [[5], [6]] = [5] :=
  (pagination_accumulates [[5], [6]] [5] [[6]]).2.2 rfl

/-- Helper: `_delete_object` always logs exactly one more DELETE request,
for the processed object. -/
theorem deleteObjectStep_log (delStatus : AAPObj → Nat) (st : CleanerState)
    (o : AAPObj) :
    (deleteObjectStep delStatus st o).deleteLog = st.deleteLog ++ [o] := by
  unfold deleteObjectStep
  cases h : httpDelete (delStatus o) with
  | ok b => cases b <;> simp
  | error e => simp

/-- Helper: the skipped counter never decreases across `_delete_object`. -/
theorem deleteObjectStep_skipped (delStatus : AAPObj → Nat) (st : CleanerState)
    (o : AAPObj) :
    st.skipped ≤ (deleteObjectStep delStatus st o).skipped := by
  unfold deleteObjectStep
  cases h : httpDelete (delStatus o) with
  | ok b => cases b <;> simp
  | error e => simp

/-- Helper: a full pass over a kind only logs DELETE requests for objects
that are neither in the protected-name set nor managed, and counts at
least every protected object as skipped. -/
theorem deleteAllOfKind_aux (skipNames : List String)
    (delStatus : AAPObj → Nat) :
    ∀ (objs : List AAPObj) (st : CleanerState),
      (∀ o ∈ (objs.foldl (processObject skipNames delStatus) st).deleteLog,
        o ∈ st.deleteLog
        ∨ (skipNames.contains o.name = false ∧ o.managed = false))
      ∧ st.skipped
          + objs.countP (fun o => skipNames.contains o.name || o.managed)
          ≤ (objs.foldl (processObject skipNames delStatus) st).skipped := by
  intro objs
  induction objs with
  | nil =>
    intro st
    exact ⟨fun o ho => Or.inl ho, by simp⟩
  | cons a rest ih =>
    intro st
    have hstep := ih (processObject skipNames delStatus st a)
    constructor
    · intro o ho
      rcases hstep.1 o (by simpa using ho) with h1 | h2
      · by_cases hskip : a.name ∈ skipNames
        · exact Or.inl (by simpa [processObject, hskip] using h1)
        · by_cases hman : a.managed = true
          · exact Or.inl (by simpa [processObject, hskip, hman] using h1)
          · have hlog : (processObject skipNames delStatus st a).deleteLog =
                st.deleteLog ++ [a] := by
              simp [processObject, hskip, hman, deleteObjectStep_log]
            rw [hlog] at h1
            rcases List.mem_append.mp h1 with hl | hr
            · exact Or.inl hl
            · have : o = a := by simpa using hr
              subst this
              exact Or.inr ⟨by simpa using hskip, by simpa using hman⟩
      · exact Or.inr h2
    · have hinc : st.skipped
          + (if (skipNames.contains a.name || a.managed) = true then 1 else 0)
          ≤ (processObject skipNames delStatus st a).skipped := by
        by_cases hskip : a.name ∈ skipNames
        · have hc : (skipNames.contains a.name || a.managed) = true := by
            simp [hskip]
          rw [if_pos hc]
          have hval : (processObject skipNames delStatus st a).skipped =
              st.skipped + 1 := by
            simp [processObject, hskip]
          omega
        · by_cases hman : a.managed = true
          · have hc : (skipNames.contains a.name || a.managed) = true := by
              simp [hman]
            rw [if_pos hc]
            have hval : (processObject skipNames delStatus st a).skipped =
                st.skipped + 1 := by
              simp [processObject, hskip, hman]
            omega
          · have hc : ¬(skipNames.contains a.name || a.managed) = true := by
              simp [hskip, hman]
            rw [if_neg hc]
            have hval : (processObject skipNames delStatus st a).skipped =
                (deleteObjectStep delStatus st a).skipped := by
              simp [processObject, hskip, hman]
            have := deleteObjectStep_skipped delStatus st a
            omega
      have := hstep.2
      rw [List.countP_cons, List.foldl_cons]
      omega

/-- C8: the AAP decommissioner never issues a delete request for an object
whose name is in the kind's protected-name set or that is marked managed:
every object a DELETE was issued for is unprotected and unmanaged, and
each protected object is forced to the Skipped classification instead. -/
theorem protected_objects_never_deleted (skipNames : List String)
    (delStatus : AAPObj → Nat) (objs : List AAPObj) :
    (∀ o ∈ (deleteAllOfKind skipNames delStatus objs).deleteLog,
      skipNames.contains o.name = false ∧ o.managed = false)
    ∧ objs.countP (fun o => skipNames.contains o.name || o.managed)
        ≤ (deleteAllOfKind skipNames delStatus objs).skipped := by
  have h := deleteAllOfKind_aux skipNames delStatus objs ⟨0, 0, 0, []⟩
  refine ⟨?_, by simpa using h.2⟩
  intro o ho
  rcases h.1 o ho with h1 | h2
  · simp at h1
  · exact h2

/-- Concrete instantiation of `protected_objects_never_deleted`: with the
protected organization set, a run over the Default organization and a
custom one only ever deletes the custom one. -/
theorem protected_objects_never_deleted_witness :
    SKIP_ORGS.contains "MigrateMe-Corp" = false
    ∧ (⟨2, "MigrateMe-Corp", false⟩ : AAPObj).managed = false :=
  (protected_objects_never_deleted SKIP_ORGS (fun _ => 204)
    [⟨1, "Default", false⟩, ⟨2, "MigrateMe-Corp", false⟩]).1
    ⟨2, "MigrateMe-Corp", false⟩ (by decide)

/-- Helper: the fetch/save/visit step preserves the downloader invariant
when the id was not yet visited. -/
theorem touch_preserves_inv (st : DlState) (k : DKind) (i : Nat)
    (hv : (k, i) ∉ st.visited) (h : DlInv st) : DlInv (st.touch k i) := by
  obtain ⟨hnd, hiff, hsv⟩ := h
  refine ⟨?_, ?_, by simp [DlState.touch, hsv]⟩
  · have hni : (k, i) ∉ st.fetchLog := fun hc => hv ((hiff _).mp hc)
    simp [DlState.touch, List.nodup_append, hnd, hni]
  · intro e
    simp only [DlState.touch, List.mem_append, List.mem_cons,
      List.mem_singleton, List.not_mem_nil, or_false]
    rw [hiff e]
    tauto

/-- Helper: a fold of an invariant-preserving step preserves the
invariant. -/
theorem foldl_preserves_inv (f : DlState → Nat → DlState)
    (hf : ∀ st i, DlInv st → DlInv (f st i)) :
    ∀ (l : List Nat) (st : DlState), DlInv st → DlInv (l.foldl f st) := by
  intro l
  induction l with
  | nil => intro st h; exact h
  | cons a rest ih =>
    intro st h
    rw [List.foldl_cons]
    exact ih (f st a) (hf st a h)

/-- Helper: `download_organization` preserves the invariant. -/
theorem downloadOrganization_inv (r : Remote) (st : DlState) (i : Nat)
    (h : DlInv st) : DlInv (downloadOrganization r st i) := by
  unfold downloadOrganization
  by_cases hv : (DKind.organizations, i) ∈ st.visited
  · rw [if_pos hv]; exact h
  · rw [if_neg hv]; exact touch_preserves_inv st _ i hv h

/-- Helper: the guarded organization recursion preserves the invariant. -/
theorem downloadOrganizationOpt_inv (r : Remote) (st : DlState)
    (x : Option Nat) (h : DlInv st) : DlInv (downloadOrganizationOpt r st x) := by
  cases x with
  | some i => exact downloadOrganization_inv r st i h
  | none => exact h

/-- Helper: `download_credential` preserves the invariant. -/
theorem downloadCredential_inv (r : Remote) (st : DlState) (i : Nat)
    (h : DlInv st) : DlInv (downloadCredential r st i) := by
  unfold downloadCredential
  by_cases hv : (DKind.credentials, i) ∈ st.visited
  · rw [if_pos hv]; exact h
  · rw [if_neg hv]
    exact downloadOrganizationOpt_inv r _ _ (touch_preserves_inv st _ i hv h)

/-- Helper: the guarded credential recursion preserves the invariant. -/
theorem downloadCredentialOpt_inv (r : Remote) (st : DlState)
    (x : Option Nat) (h : DlInv st) : DlInv (downloadCredentialOpt r st x) := by
  cases x with
  | some i => exact downloadCredential_inv r st i h
  | none => exact h

/-- Helper: `download_execution_environment` preserves the invariant. -/
theorem downloadExecutionEnvironment_inv (r : Remote) (st : DlState) (i : Nat)
    (h : DlInv st) : DlInv (downloadExecutionEnvironment r st i) := by
  unfold downloadExecutionEnvironment
  by_cases hv : (DKind.executionEnvironments, i) ∈ st.visited
  · rw [if_pos hv]; exact h
  · rw [if_neg hv]
    exact downloadOrganizationOpt_inv r _ _ (touch_preserves_inv st _ i hv h)

/-- Helper: the guarded execution environment recursion preserves the
invariant. -/
theorem downloadExecutionEnvironmentOpt_inv (r : Remote) (st : DlState)
    (x : Option Nat) (h : DlInv st) :
    DlInv (downloadExecutionEnvironmentOpt r st x) := by
  cases x with
  | some i => exact downloadExecutionEnvironment_inv r st i h
  | none => exact h

/-- Helper: `download_inventory` preserves the invariant. -/
theorem downloadInventory_inv (r : Remote) (st : DlState) (i : Nat)
    (h : DlInv st) : DlInv (downloadInventory r st i) := by
  unfold downloadInventory
  by_cases hv : (DKind.inventories, i) ∈ st.visited
  · rw [if_pos hv]; exact h
  · rw [if_neg hv]
    exact downloadOrganizationOpt_inv r _ _ (touch_preserves_inv st _ i hv h)

/-- Helper: the guarded inventory recursion preserves the invariant. -/
theorem downloadInventoryOpt_inv (r : Remote) (st : DlState)
    (x : Option Nat) (h : DlInv st) : DlInv (downloadInventoryOpt r st x) := by
  cases x with
  | some i => exact downloadInventory_inv r st i h
  | none => exact h

/-- Helper: `download_project` preserves the invariant. -/
theorem downloadProject_inv (r : Remote) (st : DlState) (i : Nat)
    (h : DlInv st) : DlInv (downloadProject r st i) := by
  unfold downloadProject
  by_cases hv : (DKind.projects, i) ∈ st.visited
  · rw [if_pos hv]; exact h
  · rw [if_neg hv]
    exact downloadCredentialOpt_inv r _ _
      (downloadOrganizationOpt_inv r _ _ (touch_preserves_inv st _ i hv h))

/-- Helper: the guarded project recursion preserves the invariant. -/
theorem downloadProjectOpt_inv (r : Remote) (st : DlState)
    (x : Option Nat) (h : DlInv st) : DlInv (downloadProjectOpt r st x) := by
  cases x with
  | some i => exact downloadProject_inv r st i h
  | none => exact h

/-- Helper: `download_job_template` preserves the invariant. -/
theorem downloadJobTemplate_inv (r : Remote) (st : DlState) (i : Nat)
    (h : DlInv st) : DlInv (downloadJobTemplate r st i) := by
  unfold downloadJobTemplate
  by_cases hv : (DKind.jobTemplates, i) ∈ st.visited
  · rw [if_pos hv]; exact h
  · rw [if_neg hv]
    exact foldl_preserves_inv (downloadCredential r)
      (fun s j hj => downloadCredential_inv r s j hj) _ _
      (downloadExecutionEnvironmentOpt_inv r _ _
        (downloadInventoryOpt_inv r _ _
          (downloadProjectOpt_inv r _ _ (touch_preserves_inv st _ i hv h))))

/-- Helper: one workflow iteration preserves the invariant. -/
theorem downloadWorkflow_inv (r : Remote) (st : DlState) (i : Nat)
    (h : DlInv st) : DlInv (downloadWorkflow r st i) := by
  unfold downloadWorkflow
  by_cases hv : (DKind.workflows, i) ∈ st.visited
  · rw [if_pos hv]; exact h
  · rw [if_neg hv]
    exact foldl_preserves_inv (downloadJobTemplate r)
      (fun s j hj => downloadJobTemplate_inv r s j hj) _ _
      (touch_preserves_inv st _ i hv h)

/-- Helper: a full collector run satisfies the invariant. -/
theorem runCollector_inv (r : Remote) (wfIds : List Nat) :
    DlInv (runCollector r wfIds) := by
  unfold runCollector
  exact foldl_preserves_inv (downloadWorkflow r)
    (fun s j hj => downloadWorkflow_inv r s j hj) wfIds ⟨[], [], []⟩
    ⟨List.nodup_nil, by simp, rfl⟩

/-- C2: for every input reference graph, a full collector run fetches and
persists each `(kind, remote-id)` pair at most once (the fetch and save
logs have no duplicates), and every per-kind download operation returns
immediately, leaving the state untouched, when the id is already in the
kind's visited set; the id is added to the visited set before the
recursion into reference fields (by construction of `DlState.touch`), and
the traversal is a total function, hence terminates. -/
theorem collector_fetches_once (r : Remote) (wfIds : List Nat)
    (st : DlState) (i : Nat) :
    (runCollector r wfIds).fetchLog.Nodup
    ∧ (runCollector r wfIds).saveLog.Nodup
    ∧ ((DKind.organizations, i) ∈ st.visited → downloadOrganization r st i = st)
    ∧ ((DKind.credentials, i) ∈ st.visited → downloadCredential r st i = st)
    ∧ ((DKind.executionEnvironments, i) ∈ st.visited →
        downloadExecutionEnvironment r st i = st)
    ∧ ((DKind.inventories, i) ∈ st.visited → downloadInventory r st i = st)
    ∧ ((DKind.projects, i) ∈ st.visited → downloadProject r st i = st)
    ∧ ((DKind.jobTemplates, i) ∈ st.visited → downloadJobTemplate r st i = st)
    ∧ ((DKind.workflows, i) ∈ st.visited → downloadWorkflow r st i = st) := by
  obtain ⟨hnd, _, hsv⟩ := runCollector_inv r wfIds
  refine ⟨hnd, by rw [hsv]; exact hnd, ?_, ?_, ?_, ?_, ?_, ?_, ?_⟩ <;>
    intro h
  · simp [downloadOrganization, h]
  · simp [downloadCredential, h]
  · simp [downloadExecutionEnvironment, h]
  · simp [downloadInventory, h]
  · simp [downloadProject, h]
  · simp [downloadJobTemplate, h]
  · simp [downloadWorkflow, h]

/-- A small concrete reference graph with a shared organization (two paths
reach organization 5): workflow 1 has two nodes running job templates 2
and 3, both on project 4, whose organization is 5, which is also the
organization of credential 6 attached to job template 3. -/
def diamondRemote : Remote :=
  ⟨fun _ => some 4, fun _ => none, fun _ => none,
   fun j => if j = 3 then [6] else [], fun _ => some 5, fun _ => none,
   fun _ => none, fun _ => some 5, fun _ => none,
   fun w => if w = 1 then [2, 3] else []⟩

/-- Concrete instantiation of `collector_fetches_once` on `diamondRemote`:
the run's logs are duplicate-free even though organization 5 is reachable
along two paths, and a re-download of an already-visited organization is
the identity. -/
theorem collector_fetches_once_witness :
    (runCollector diamondRemote [1]).fetchLog.Nodup
    ∧ ((DKind.organizations, 5) ∈
        (⟨[(DKind.organizations, 5)], [], []⟩ : DlState).visited
      ∧ downloadOrganization diamondRemote ⟨[(DKind.organizations, 5)], [], []⟩ 5 =
          ⟨[(DKind.organizations, 5)], [], []⟩) :=
  ⟨(collector_fetches_once diamondRemote [1] ⟨[], [], []⟩ 0).1,
   ⟨by decide,
    (collector_fetches_once diamondRemote [1]
      ⟨[(DKind.organizations, 5)], [], []⟩ 5).2.2.1 (by decide)⟩⟩

end AapCac
